import Mathlib

/-!
Verification development for the Indian-startups clustering repository.

The definitions below are shallow embeddings of the Python source:
`StartupClustering.prepare_features`, `StartupClustering.find_optimal_k`,
`StartupClustering.analyze_clusters` (src/clustering_model.py) and
`DataLoader._clean_amount` (src/data_loader.py).  Real-valued amounts are
modelled as rationals; `np.log10` is modelled separately via `Real.logb`.
-/

/-- One row of the cleaned dataframe handed to `StartupClustering`:
a single funding event of one startup. -/
structure FundingRecord where
  startup_name : String
  funding_amount_usd : ℚ
  year : ℤ
  industry : String
  city : String
deriving DecidableEq

/-- One row of the dataframe produced by `prepare_features`: the grouped
aggregates together with the derived feature columns created on
src/clustering_model.py lines 47-66 (the two log columns are modelled by
the separate functions `logTotalFunding` / `logAvgFunding`). -/
structure StartupFeatures where
  startup_name : String
  funding_amount_usd_sum : ℚ
  funding_amount_usd_mean : ℚ
  funding_amount_usd_count : ℕ
  year_min : ℤ
  year_max : ℤ
  industry_first : String
  city_first : String
  total_funding : ℚ
  avg_funding_per_round : ℚ
  num_funding_rounds : ℕ
  years_active : ℤ
  funding_per_year : ℚ
deriving DecidableEq

/-- Keys of `df.groupby('startup_name')` : the distinct startup names.
`seen` accumulates names already emitted, so each name appears once, at its
first occurrence.  (pandas additionally sorts the group keys; every claim
here is insensitive to the order of the groups.) -/
def firstKeysAux (seen : List String) : List String → List String
  | [] => []
  | n :: t => if n ∈ seen then firstKeysAux seen t else n :: firstKeysAux (n :: seen) t

/-- Distinct startup names of the input, first occurrence first. -/
def firstKeys (l : List String) : List String := firstKeysAux [] l

/-- Group of rows for one startup name (one group of the `groupby`). -/
def recordsFor (rs : List FundingRecord) (name : String) : List FundingRecord :=
  rs.filter (fun r => r.startup_name == name)

/-- Minimum of a list of years, as computed by the `'min'` aggregate over a
group; the `0` default is never reached for a key of `firstKeys`. -/
def yearMin (ys : List ℤ) : ℤ :=
  match ys with
  | [] => 0
  | y :: t => t.foldl min y

/-- Maximum of a list of years (`'max'` aggregate). -/
def yearMax (ys : List ℤ) : ℤ :=
  match ys with
  | [] => 0
  | y :: t => t.foldl max y

/-- One output row of `prepare_features` for the group of `name`
(src/clustering_model.py lines 47-62): the sum/mean/count aggregates of
`funding_amount_usd`, min/max of `year`, `'first'` of industry and city,
and the derived columns `total_funding`, `avg_funding_per_round`,
`num_funding_rounds`, `years_active = year_max - year_min + 1`,
`funding_per_year = total_funding / years_active`. -/
def buildEntity (rs : List FundingRecord) (name : String) : StartupFeatures :=
  let g := recordsFor rs name
  let total := (g.map (fun r => r.funding_amount_usd)).sum
  let cnt := g.length
  let mean := total / (cnt : ℚ)
  let ymin := yearMin (g.map (fun r => r.year))
  let ymax := yearMax (g.map (fun r => r.year))
  let ya : ℤ := ymax - ymin + 1
  { startup_name := name
    funding_amount_usd_sum := total
    funding_amount_usd_mean := mean
    funding_amount_usd_count := cnt
    year_min := ymin
    year_max := ymax
    industry_first := (match g with | [] => "" | r :: _ => r.industry)
    city_first := (match g with | [] => "" | r :: _ => r.city)
    total_funding := total
    avg_funding_per_round := mean
    num_funding_rounds := cnt
    years_active := ya
    funding_per_year := total / (ya : ℚ) }

/-- Embedding of `StartupClustering.prepare_features`: one aggregated
feature row per distinct `startup_name` of the input.  On an empty input
the `groupby` produces no groups and the result is the empty frame: the
Python method raises no error. -/
def prepareFeatures (rs : List FundingRecord) : List StartupFeatures :=
  (firstKeys (rs.map (fun r => r.startup_name))).map (buildEntity rs)

/-- Embedding of the column `log_total_funding = np.log10(total_funding + 1)`
(src/clustering_model.py line 65). -/
noncomputable def logTotalFunding (e : StartupFeatures) : ℝ :=
  Real.logb 10 ((e.total_funding : ℝ) + 1)

/-- Embedding of the column `log_avg_funding = np.log10(avg_funding_per_round + 1)`
(src/clustering_model.py line 66). -/
noncomputable def logAvgFunding (e : StartupFeatures) : ℝ :=
  Real.logb 10 ((e.avg_funding_per_round : ℝ) + 1)

/-! Elbow method of `StartupClustering.find_optimal_k`
(src/clustering_model.py lines 117-130).  The inertia values returned by the
K-Means runs are taken as an abstract list; the rate, threshold and scan
computations are embedded literally. -/

/-- The loop `for i in range(1, len(inertias)): rate = (inertias[i-1] -
inertias[i]) / inertias[i-1] * 100` : the successive percentage decreases
of the inertia list. -/
def ratesOf : List ℚ → List ℚ
  | a :: b :: t => ((a - b) / a * 100) :: ratesOf (b :: t)
  | _ => []

/-- Arithmetic mean of a list, `np.mean` (the empty case never feeds the
scan: with an empty rate list the loop body never runs). -/
def meanQ (xs : List ℚ) : ℚ := xs.sum / (xs.length : ℚ)

/-- The elbow threshold, `threshold = np.mean(rates) * 0.5`. -/
def thresholdOf (inertias : List ℚ) : ℚ := meanQ (ratesOf inertias) * (1 / 2)

/-- The scan `for i, rate in enumerate(rates): if i > 0 and rate < threshold`,
returning the index of the first hit; `i` is the running `enumerate` index. -/
def scanFrom (i : ℕ) (thr : ℚ) : List ℚ → Option ℕ
  | [] => none
  | r :: t => if 0 < i ∧ r < thr then some i else scanFrom (i + 1) thr t

/-- Embedding of the elbow selection of `find_optimal_k`: on a hit at index
`i` the code sets `self.optimal_k = i + 2`; if the scan never fires the
default is `4` (src/clustering_model.py lines 124-130). -/
def findOptimalK (inertias : List ℚ) : ℕ :=
  match scanFrom 0 (thresholdOf inertias) (ratesOf inertias) with
  | some i => i + 2
  | none => 4

/-! Cluster labeling of `StartupClustering.analyze_clusters`
(src/clustering_model.py lines 200-217). -/

/-- Insertion of one value into a sorted list of rationals. -/
def insertSorted (a : ℚ) : List ℚ → List ℚ
  | [] => [a]
  | b :: t => if a ≤ b then a :: b :: t else b :: insertSorted a t

/-- Ascending sort of a list of rationals. -/
def sortQ (l : List ℚ) : List ℚ := l.foldr insertSorted []

/-- pandas `Series.quantile(q)` with the default linear interpolation:
on the ascending sort, position `h = q * (n - 1)`, result
`x[⌊h⌋] + (h - ⌊h⌋) * (x[⌊h⌋ + 1] - x[⌊h⌋])`. -/
def quantileQ (xs : List ℚ) (q : ℚ) : ℚ :=
  let sorted := sortQ xs
  let n := sorted.length
  if n = 0 then 0 else
    let h : ℚ := q * ((n : ℚ) - 1)
    let lo : ℕ := (⌊h⌋).toNat
    let a := sorted.getD lo 0
    let b := sorted.getD (min (lo + 1) (n - 1)) 0
    a + (h - (⌊h⌋ : ℚ)) * (b - a)

/-- The nested conditionals of src/clustering_model.py lines 207-217 that
pick a cluster name from the cluster means and the global quantiles. -/
def assignClusterName (avg_funding avg_rounds q75f q75r q50f q60r : ℚ) : String :=
  if avg_funding > q75f then
    if avg_rounds > q75r then "High-Growth Unicorns"
    else "Large Single-Round Players"
  else if avg_funding > q50f then "Mid-Tier Growth Startups"
  else if avg_rounds > q60r then "Frequent Small-Round Startups"
  else "Early-Stage Ventures"

/-- Embedding of the naming step of `analyze_clusters` for one cluster:
the cluster means of `total_funding` and `num_funding_rounds` are compared
against quantiles of `self.cluster_data`, the frame holding ALL entities,
so the 75th/50th/60th-percentile thresholds are global, not per cluster. -/
def analyzeClusterName (allEntities cluster : List StartupFeatures) : String :=
  assignClusterName
    (meanQ (cluster.map (fun e => e.total_funding)))
    (meanQ (cluster.map (fun e => (e.num_funding_rounds : ℚ))))
    (quantileQ (allEntities.map (fun e => e.total_funding)) (3 / 4))
    (quantileQ (allEntities.map (fun e => (e.num_funding_rounds : ℚ))) (3 / 4))
    (quantileQ (allEntities.map (fun e => e.total_funding)) (1 / 2))
    (quantileQ (allEntities.map (fun e => (e.num_funding_rounds : ℚ))) (3 / 5))

/-- Modelled from the spec: the five labeling rules as an explicit ordered
decision list (section 4.5 of the spec), to be compared with the nested
conditionals of the source. -/
def specRuleList (avg_funding avg_rounds q75f q75r q50f q60r : ℚ) :
    List (Bool × String) :=
  [(decide (avg_funding > q75f) && decide (avg_rounds > q75r), "High-Growth Unicorns"),
   (decide (avg_funding > q75f), "Large Single-Round Players"),
   (decide (avg_funding > q50f), "Mid-Tier Growth Startups"),
   (decide (avg_rounds > q60r), "Frequent Small-Round Startups"),
   (true, "Early-Stage Ventures")]

/-- First rule of a decision list whose condition holds; the empty default
is never reached because the last rule of `specRuleList` is a catch-all. -/
def firstMatching : List (Bool × String) → String
  | [] => ""
  | (c, s) :: t => if c then s else firstMatching t

/-- Modelled from the spec: the labeling of one cluster as the spec states
it, a strict first-match-wins decision list over the global quantiles. -/
def specClusterName (allEntities cluster : List StartupFeatures) : String :=
  firstMatching (specRuleList
    (meanQ (cluster.map (fun e => e.total_funding)))
    (meanQ (cluster.map (fun e => (e.num_funding_rounds : ℚ))))
    (quantileQ (allEntities.map (fun e => e.total_funding)) (3 / 4))
    (quantileQ (allEntities.map (fun e => (e.num_funding_rounds : ℚ))) (3 / 4))
    (quantileQ (allEntities.map (fun e => e.total_funding)) (1 / 2))
    (quantileQ (allEntities.map (fun e => (e.num_funding_rounds : ℚ))) (3 / 5)))

/-! The feature-selection step `X = self.cluster_data[feature_cols].fillna(0)`
(src/clustering_model.py lines 93 and 163): a missing value (NaN) in a cell
is modelled as `none` and replaced by `0` before the matrix reaches the
scaler. -/

/-- `fillna(0)` on one cell. -/
def fillnaCell (v : Option ℚ) : ℚ := v.getD 0

/-- `fillna(0)` on a whole feature matrix. -/
def fillnaMatrix (m : List (List (Option ℚ))) : List (List ℚ) :=
  m.map (fun row => row.map fillnaCell)

/-- Cell at row `i`, column `j` of a matrix. -/
def cellAt (m : List (List α)) (i j : ℕ) : Option α :=
  (m.get? i).bind (fun row => row.get? j)

/-! Standardizer.  The scaling itself is performed by sklearn's
`StandardScaler`, which is not part of this repository. -/

/-- Modelled from the spec: the column mean computed by `Standardizer.fit`
(section 4.2 of the spec); the scaler is external library code. -/
def colMean (xs : List ℚ) : ℚ := xs.sum / (xs.length : ℚ)

/-- Modelled from the spec: the column variance (the square of the standard
deviation computed by `Standardizer.fit`).  The standard deviation itself is
irrational in general, so theorems take it as a value whose square is this
variance. -/
def colVar (xs : List ℚ) : ℚ :=
  ((xs.map (fun v => (v - colMean xs) ^ 2)).sum) / (xs.length : ℚ)

/-- Modelled from the spec: `Standardizer.transform` maps each value `v` of a
column to `(v - mean) / std`, and to `0` when `std = 0` (degenerate constant
column), per section 4.2 of the spec. -/
def transformCol (mean std : ℚ) (xs : List ℚ) : List ℚ :=
  xs.map (fun v => if std = 0 then 0 else (v - mean) / std)

/-! Embedding of `DataLoader._clean_amount` (src/data_loader.py lines
173-215).  String processing is carried out on `List Char` with explicit
structural recursion so that concrete inputs evaluate inside the kernel. -/

/-- Raw cell value reaching `_clean_amount`: a pandas NaN, an
already-numeric value, or a string. -/
inductive RawAmount where
  | nan : RawAmount
  | num : ℚ → RawAmount
  | str : String → RawAmount

/-- Whether `sub` occurs as a contiguous substring, the Python `in` test. -/
def containsSub (l sub : List Char) : Bool :=
  match l with
  | [] => sub.isEmpty
  | _ :: t => sub.isPrefixOf l || containsSub t sub

/-- One pass of `str.replace(pat, rep)` with explicit fuel (the fuel is the
length of the scanned list, enough since every step consumes a character);
`pat` is nonempty at every call site. -/
def replaceAux (pat rep : List Char) : ℕ → List Char → List Char
  | 0, l => l
  | _ + 1, [] => []
  | fuel + 1, c :: t =>
    if pat.isPrefixOf (c :: t) then
      rep ++ replaceAux pat rep fuel (t.drop (pat.length - 1))
    else c :: replaceAux pat rep fuel t

/-- Python `str.replace(pat, rep)`, replacing every occurrence left to
right without overlap. -/
def replaceAll (l pat rep : List Char) : List Char :=
  replaceAux pat rep l.length l

/-- Python `str.strip()`: drop whitespace at both ends. -/
def stripChars (l : List Char) : List Char :=
  ((l.dropWhile Char.isWhitespace).reverse.dropWhile Char.isWhitespace).reverse

/-- Python `str.upper()` on the characters appearing in amounts. -/
def upperChars (l : List Char) : List Char := l.map Char.toUpper

/-- Value of a digit string, most significant first. -/
def digitsVal (l : List Char) : ℕ :=
  l.foldl (fun acc c => 10 * acc + (c.toNat - '0'.toNat)) 0

/-- Model of Python's `float()` on the strings that survive the cleaning:
an optional sign followed by a decimal literal `digits`, `digits.digits`,
`digits.` or `.digits` (scientific notation and the inf/nan words are not
modelled; they never arise from cleaned funding amounts).  Returns `none`
exactly when the text is not such a literal, the case Python turns into an
exception caught by the bare `except`. -/
def parseDecimal (l : List Char) : Option ℚ :=
  let core : List Char → Option ℚ := fun s =>
    match s.splitOn '.' with
    | [d] => if d ≠ [] ∧ d.all Char.isDigit then some (digitsVal d : ℚ) else none
    | [a, b] =>
        if (a ≠ [] ∨ b ≠ []) ∧ a.all Char.isDigit ∧ b.all Char.isDigit then
          some ((digitsVal a : ℚ) + (digitsVal b : ℚ) / (10 : ℚ) ^ b.length)
        else none
    | _ => none
  match l with
  | '+' :: t => core t
  | '-' :: t => (core t).map Neg.neg
  | _ => core l

/-- The suffix dispatch of `_clean_amount` lines 195-210: pick the
multiplier from the first matching suffix family and strip its letters.
Each branch tests and replaces exactly as the Python does, in order
B/BILLION, M/MILLION, K/THOUSAND, CR/CRORE, L/LAKH. -/
def applySuffix (l : List Char) : List Char × ℚ :=
  if containsSub l ['B'] || containsSub l "BILLION".data then
    (replaceAll (replaceAll l ['B'] []) "BILLION".data [], 1000000000)
  else if containsSub l ['M'] || containsSub l "MILLION".data then
    (replaceAll (replaceAll l ['M'] []) "MILLION".data [], 1000000)
  else if containsSub l ['K'] || containsSub l "THOUSAND".data then
    (replaceAll (replaceAll l ['K'] []) "THOUSAND".data [], 1000)
  else if containsSub l "CR".data || containsSub l "CRORE".data then
    (replaceAll (replaceAll l "CR".data []) "CRORE".data [], 10000000)
  else if containsSub l ['L'] || containsSub l "LAKH".data then
    (replaceAll (replaceAll l ['L'] []) "LAKH".data [], 100000)
  else (l, 1)

/-- The currency cleanup of `_clean_amount` lines 189-192:
`str(amount).strip().upper()` then removal of `$`, `₹` and `,`. -/
def cleanCurrency (l : List Char) : List Char :=
  replaceAll (replaceAll (replaceAll (upperChars (stripChars l)) ['$'] []) ['₹'] []) [','] []

/-- Embedding of `DataLoader._clean_amount`: NaN and unparseable strings
map to `0`, numbers pass through, strings are cleaned, a magnitude suffix
sets the multiplier, and `float(s.strip()) * multiplier` is returned when
the remaining text parses; the bare `except` turns any parse failure into
`0`.  The function is total: every input yields a rational. -/
def cleanAmount : RawAmount → ℚ
  | .nan => 0
  | .num q => q
  | .str s =>
    let cleaned := cleanCurrency s.data
    let p := applySuffix cleaned
    match parseDecimal (stripChars p.1) with
    | some q => q * p.2
    | none => 0

/-! Helper lemmas (shared across claims). -/

theorem mem_firstKeysAux (l : List String) :
    ∀ (seen : List String) (x : String),
      x ∈ firstKeysAux seen l ↔ x ∈ l ∧ x ∉ seen := by
  induction l with
  | nil => intro seen x; simp [firstKeysAux]
  | cons n t ih =>
    intro seen x
    by_cases hn : n ∈ seen
    · rw [firstKeysAux, if_pos hn, ih]
      simp only [List.mem_cons]
      constructor
      · tauto
      · rintro ⟨rfl | hx, hs⟩
        · exact absurd hn hs
        · exact ⟨hx, hs⟩
    · rw [firstKeysAux, if_neg hn]
      simp only [List.mem_cons, ih, List.mem_cons]
      by_cases hxn : x = n
      · subst hxn; simp [hn]
      · simp only [hxn, false_or]

theorem nodup_firstKeysAux (l : List String) :
    ∀ seen : List String, (firstKeysAux seen l).Nodup := by
  induction l with
  | nil => intro seen; simp [firstKeysAux]
  | cons n t ih =>
    intro seen
    by_cases hn : n ∈ seen
    · simpa [firstKeysAux, if_pos hn] using ih seen
    · simp only [firstKeysAux, if_neg hn, List.nodup_cons]
      refine ⟨fun hmem => ?_, ih (n :: seen)⟩
      exact ((mem_firstKeysAux t (n :: seen) n).mp hmem).2 (List.mem_cons_self n seen)

theorem firstKeys_toFinset (l : List String) :
    (firstKeys l).toFinset = l.toFinset := by
  ext x
  simp [firstKeys, List.mem_toFinset, mem_firstKeysAux]

theorem length_firstKeys (l : List String) :
    (firstKeys l).length = l.dedup.length := by
  have h1 : (firstKeys l).toFinset.card = (firstKeys l).length :=
    List.toFinset_card_of_nodup (nodup_firstKeysAux l [])
  rw [← h1, firstKeys_toFinset, List.card_toFinset]

theorem buildEntity_name (rs : List FundingRecord) (name : String) :
    (buildEntity rs name).startup_name = name := rfl

theorem recordsFor_ne_nil (rs : List FundingRecord) (name : String)
    (h : name ∈ rs.map (fun r => r.startup_name)) : recordsFor rs name ≠ [] := by
  intro hnil
  rcases List.mem_map.mp h with ⟨r, hr, hname⟩
  have : r ∈ recordsFor rs name :=
    List.mem_filter.mpr ⟨hr, by simp [hname]⟩
  rw [hnil] at this
  exact List.not_mem_nil r this

theorem foldl_min_le_foldl_max (l : List ℤ) :
    ∀ a b : ℤ, a ≤ b → l.foldl min a ≤ l.foldl max b := by
  induction l with
  | nil => intro a b h; exact h
  | cons x t ih =>
    intro a b h
    exact ih (min a x) (max b x)
      (le_trans (min_le_left a x) (le_trans h (le_max_left b x)))

theorem yearMin_le_yearMax (ys : List ℤ) (h : ys ≠ []) : yearMin ys ≤ yearMax ys := by
  cases ys with
  | nil => exact absurd rfl h
  | cons y t => exact foldl_min_le_foldl_max t y y le_rfl

theorem scanFrom_none_of_all (thr : ℚ) (l : List ℚ)
    (h : ∀ r ∈ l, ¬ r < thr) : ∀ k : ℕ, scanFrom k thr l = none := by
  induction l with
  | nil => intro k; rfl
  | cons r t ih =>
    intro k
    rw [scanFrom, if_neg]
    · exact ih (fun x hx => h x (List.mem_cons_of_mem r hx)) (k + 1)
    · rintro ⟨-, hlt⟩
      exact h r (List.mem_cons_self r t) hlt

theorem scanFrom_pos_first (thr : ℚ) (l : List ℚ) :
    ∀ (k i : ℕ) (r : ℚ), 0 < k → l.get? i = some r → r < thr →
      (∀ rj ∈ l.take i, ¬ rj < thr) → scanFrom k thr l = some (k + i) := by
  induction l with
  | nil => intro k i r _ hget; simp [List.get?] at hget
  | cons a t ih =>
    intro k i r hk hget hlt htake
    cases i with
    | zero =>
      have ha : a = r := by simpa using hget
      rw [scanFrom, if_pos ⟨hk, ha ▸ hlt⟩, Nat.add_zero]
    | succ j =>
      have hna : ¬ a < thr := htake a (by simp [List.take])
      rw [scanFrom, if_neg (fun hc => hna hc.2)]
      have := ih (k + 1) j r (Nat.succ_pos k) (by simpa using hget) hlt
        (fun rj hrj => htake rj (by simp [List.take, hrj]))
      rw [this]
      congr 1
      omega

theorem colMean_const (xs : List ℚ) (c : ℚ) (hne : xs ≠ [])
    (hc : ∀ v ∈ xs, v = c) : colMean xs = c := by
  have hrep : xs = List.replicate xs.length c := List.eq_replicate_of_mem hc
  have hsum : xs.sum = (xs.length : ℚ) * c := by
    conv_lhs => rw [hrep]
    rw [List.sum_replicate, nsmul_eq_mul]
  have hlen : (xs.length : ℚ) ≠ 0 := by
    have : xs.length ≠ 0 := by simpa [List.length_eq_zero] using hne
    exact_mod_cast this
  rw [colMean, hsum, mul_div_cancel_left₀ _ hlen]

theorem colVar_const (xs : List ℚ) (c : ℚ) (hne : xs ≠ [])
    (hc : ∀ v ∈ xs, v = c) : colVar xs = 0 := by
  have hmean := colMean_const xs c hne hc
  have hz : ∀ t ∈ xs.map (fun v => (v - colMean xs) ^ 2), t = 0 := by
    intro t ht
    rcases List.mem_map.mp ht with ⟨v, hv, rfl⟩
    rw [hmean, hc v hv]
    ring
  rw [colVar, List.sum_eq_zero hz, zero_div]

theorem assign_eq_firstMatching (f r q75f q75r q50f q60r : ℚ) :
    assignClusterName f r q75f q75r q50f q60r =
      firstMatching (specRuleList f r q75f q75r q50f q60r) := by
  unfold assignClusterName specRuleList
  by_cases h1 : f > q75f <;> by_cases h2 : r > q75r <;>
    by_cases h3 : f > q50f <;> by_cases h4 : r > q60r <;>
    simp [firstMatching, h1, h2, h3, h4]

/-! Claim theorems. -/

/-- C1 (counterexample): the scan over `rates` of the inertia list
`[100, 40, 20, 19]` first fires at index `i = 2` (rates are `[60, 50, 5]`,
threshold `115/6`), and the code chooses `K = i + 2 = 4`, not
`kMin + i + 1 = 5` as the claim states. -/
theorem elbow_offset_counterexample :
    scanFrom 0 (thresholdOf [100, 40, 20, 19]) (ratesOf [100, 40, 20, 19]) = some 2 ∧
    findOptimalK [100, 40, 20, 19] = 4 ∧
    findOptimalK [100, 40, 20, 19] ≠ 2 + 2 + 1 := by
  refine ⟨?_, ?_, ?_⟩ <;> norm_num [findOptimalK, scanFrom, thresholdOf, ratesOf, meanQ]

/-- C1 (amended): with `rate[i] = (inertia[i-1] - inertia[i]) / inertia[i-1] * 100`
over the inertia list for `k = kMin..kMax` (`kMin = 2`) and
`threshold = mean(rate) * 0.5`, the scan skips index 0 and the first index
`i > 0` with `rate[i] < threshold` yields `chosenK = kMin + i`. -/
theorem find_optimal_k_first_hit (inertias : List ℚ) (i : ℕ) (r : ℚ)
    (hget : (ratesOf inertias).get? i = some r)
    (hpos : 0 < i)
    (hlt : r < thresholdOf inertias)
    (hfirst : ∀ rj ∈ ((ratesOf inertias).take i).tail, ¬ rj < thresholdOf inertias) :
    findOptimalK inertias = 2 + i := by
  cases hr : ratesOf inertias with
  | nil => rw [hr] at hget; simp at hget
  | cons a t =>
    rw [hr] at hget hfirst
    obtain ⟨j, rfl⟩ : ∃ j, i = j + 1 := ⟨i - 1, by omega⟩
    have hscan : scanFrom 0 (thresholdOf inertias) (a :: t) = some (1 + j) := by
      rw [scanFrom, if_neg (by simp)]
      exact scanFrom_pos_first (thresholdOf inertias) t 1 j r Nat.one_pos
        (by simpa using hget) hlt (by simpa using hfirst)
    unfold findOptimalK
    rw [hr, hscan]
    show 1 + j + 2 = 2 + (j + 1)
    omega

/-- C1 (witness): the amended statement applied to the inertia list
`[100, 40, 20, 19]`, whose first qualifying rate index is `i = 2`. -/
theorem find_optimal_k_first_hit_witness :
    (ratesOf [100, 40, 20, 19]).get? 2 = some 5 ∧ (0 : ℕ) < 2 ∧
    (5 : ℚ) < thresholdOf [100, 40, 20, 19] ∧
    (∀ rj ∈ ((ratesOf [100, 40, 20, 19]).take 2).tail,
      ¬ rj < thresholdOf [100, 40, 20, 19]) ∧
    findOptimalK [100, 40, 20, 19] = 2 + 2 :=
  ⟨by norm_num [ratesOf], by norm_num,
    by norm_num [thresholdOf, ratesOf, meanQ],
    by norm_num [ratesOf, thresholdOf, meanQ],
    find_optimal_k_first_hit [100, 40, 20, 19] 2 5 (by norm_num [ratesOf])
      (by norm_num) (by norm_num [thresholdOf, ratesOf, meanQ])
      (by norm_num [ratesOf, thresholdOf, meanQ])⟩

/-- C2: the cluster labeling of `analyze_clusters` — cluster means of
`total_funding` and `num_funding_rounds` compared against the global
75th/50th percentiles of `total_funding` and 75th/60th percentiles of
`num_funding_rounds`, through the nested conditionals of the source — is
exactly the spec's strict ordered five-rule decision list where the first
matching rule wins. -/
theorem analyze_cluster_name_decision_list (allEntities cluster : List StartupFeatures) :
    analyzeClusterName allEntities cluster = specClusterName allEntities cluster := by
  unfold analyzeClusterName specClusterName
  exact assign_eq_firstMatching _ _ _ _ _ _

/-- C3 (counterexample): on empty input `prepare_features` raises nothing
and returns the empty feature collection — there is no `EmptyInputError`
anywhere in the source — contradicting the claim that it fails rather than
returning an empty collection. -/
theorem prepare_features_empty_counterexample :
    prepareFeatures [] = [] := rfl

/-- C3 (amended): when the input record sequence is empty, the feature
preparation returns an empty feature collection (the groupby produces no
groups); no error is raised. -/
theorem prepare_features_empty (rs : List FundingRecord) (h : rs = []) :
    prepareFeatures rs = [] := by
  subst h; rfl

/-- C3 (witness): the amended statement applied to the empty input. -/
theorem prepare_features_empty_witness :
    ([] : List FundingRecord) = [] ∧ prepareFeatures [] = [] :=
  ⟨rfl, prepare_features_empty [] rfl⟩

/-- C4 (counterexample): a NaN cell in the feature matrix is silently
coerced to `0` by `fillna(0)` before the matrix reaches the scaler
(src/clustering_model.py line 93); no `NonFiniteValueError` exists in the
source and nothing fatal is surfaced. -/
theorem fillna_counterexample :
    fillnaMatrix [[some 1, none]] = [[1, 0]] ∧ fillnaCell none = 0 := by
  refine ⟨rfl, rfl⟩

/-- C4 (amended): a NaN value reaching the scaling step of the clustering
pipeline is silently replaced by `0` via `fillna(0)` before scaling; the
pipeline proceeds and raises no error. -/
theorem fillna_replaces_nan (m : List (List (Option ℚ))) (i j : ℕ)
    (h : cellAt m i j = some none) :
    cellAt (fillnaMatrix m) i j = some 0 := by
  unfold cellAt at h ⊢
  rcases Option.bind_eq_some.mp h with ⟨row, hrow, hcell⟩
  unfold fillnaMatrix
  rw [List.get?_map, hrow]
  simp only [Option.map_some', Option.some_bind]
  rw [List.get?_map, hcell]
  rfl

/-- C4 (witness): the amended statement applied to the one-cell matrix
whose only entry is NaN. -/
theorem fillna_replaces_nan_witness :
    cellAt [[(none : Option ℚ)]] 0 0 = some none ∧
    cellAt (fillnaMatrix [[(none : Option ℚ)]]) 0 0 = some 0 :=
  ⟨rfl, fillna_replaces_nan [[(none : Option ℚ)]] 0 0 rfl⟩

/-- C8: if no scanned rate index (the scan covers the indices after the
first) satisfies `rate < threshold`, `find_optimal_k` falls through to the
default and the chosen K is exactly 4. -/
theorem find_optimal_k_default (inertias : List ℚ)
    (h : ∀ r ∈ (ratesOf inertias).tail, ¬ r < thresholdOf inertias) :
    findOptimalK inertias = 4 := by
  unfold findOptimalK
  cases hr : ratesOf inertias with
  | nil => rfl
  | cons a t =>
    rw [hr] at h
    rw [scanFrom, if_neg (by simp), scanFrom_none_of_all _ t (by simpa using h) 1]

/-- C8 (witness): for the inertia list `[16, 8, 4, 2]` every rate is 50 and
the threshold 25, so no scanned index fires and the chosen K is 4. -/
theorem find_optimal_k_default_witness :
    (∀ r ∈ (ratesOf [16, 8, 4, 2]).tail, ¬ r < thresholdOf [16, 8, 4, 2]) ∧
    findOptimalK [16, 8, 4, 2] = 4 :=
  ⟨by norm_num [ratesOf, thresholdOf, meanQ],
    find_optimal_k_default [16, 8, 4, 2] (by norm_num [ratesOf, thresholdOf, meanQ])⟩

/-- C5: for every non-empty record sequence, `prepare_features` produces
exactly one feature vector per distinct entity identifier: the output names
are duplicate-free, an identifier appears in the input iff it appears in
the output (none dropped), and the number of output vectors equals the
number of distinct identifiers of the input. -/
theorem prepare_features_one_per_entity (rs : List FundingRecord) (hne : rs ≠ []) :
    ((prepareFeatures rs).map (fun e => e.startup_name)).Nodup ∧
    (∀ n, n ∈ rs.map (fun r => r.startup_name) ↔
      n ∈ (prepareFeatures rs).map (fun e => e.startup_name)) ∧
    (prepareFeatures rs).length = (rs.map (fun r => r.startup_name)).dedup.length := by
  have hmap : (prepareFeatures rs).map (fun e => e.startup_name)
      = firstKeys (rs.map (fun r => r.startup_name)) := by
    rw [prepareFeatures, List.map_map]
    have hcomp : ((fun e : StartupFeatures => e.startup_name) ∘ buildEntity rs) = id :=
      funext (fun n => rfl)
    rw [hcomp, List.map_id]
  refine ⟨?_, ?_, ?_⟩
  · rw [hmap]; exact nodup_firstKeysAux _ []
  · intro n
    rw [hmap]
    simp [firstKeys, mem_firstKeysAux]
  · have hlen : (prepareFeatures rs).length
        = ((prepareFeatures rs).map (fun e => e.startup_name)).length :=
      (List.length_map _ _).symm
    rw [hlen, hmap, length_firstKeys]

/-- C5 (witness): the statement applied to a concrete two-record input with
two distinct identifiers. -/
theorem prepare_features_one_per_entity_witness :
    ([⟨"A", 5, 2020, "T", "C"⟩, ⟨"B", 7, 2021, "T", "C"⟩] : List FundingRecord) ≠ [] ∧
    (((prepareFeatures [⟨"A", 5, 2020, "T", "C"⟩, ⟨"B", 7, 2021, "T", "C"⟩]).map
        (fun e => e.startup_name)).Nodup ∧
      (∀ n, n ∈ ([⟨"A", 5, 2020, "T", "C"⟩, ⟨"B", 7, 2021, "T", "C"⟩] :
          List FundingRecord).map (fun r => r.startup_name) ↔
        n ∈ (prepareFeatures [⟨"A", 5, 2020, "T", "C"⟩, ⟨"B", 7, 2021, "T", "C"⟩]).map
          (fun e => e.startup_name)) ∧
      (prepareFeatures [⟨"A", 5, 2020, "T", "C"⟩, ⟨"B", 7, 2021, "T", "C"⟩]).length
        = (([⟨"A", 5, 2020, "T", "C"⟩, ⟨"B", 7, 2021, "T", "C"⟩] :
            List FundingRecord).map (fun r => r.startup_name)).dedup.length) :=
  ⟨List.cons_ne_nil _ _,
    prepare_features_one_per_entity _ (List.cons_ne_nil _ _)⟩

/-- C6: every entity produced by `prepare_features` has
`years_active = (max year - min year) + 1 ≥ 1`, hence the divisor of
`funding_per_year = total_funding / years_active` is nonzero and the
quotient reproduces `total_funding` on multiplication: the division is
never by zero. -/
theorem years_active_ge_one (rs : List FundingRecord) (e : StartupFeatures)
    (he : e ∈ prepareFeatures rs) :
    1 ≤ e.years_active ∧ (e.years_active : ℚ) ≠ 0 ∧
      e.funding_per_year * (e.years_active : ℚ) = e.total_funding := by
  rcases List.mem_map.mp he with ⟨name, hname, rfl⟩
  have hmem : name ∈ rs.map (fun r => r.startup_name) :=
    ((mem_firstKeysAux _ [] name).mp hname).1
  have hg : recordsFor rs name ≠ [] := recordsFor_ne_nil rs name hmem
  have hys : (recordsFor rs name).map (fun r => r.year) ≠ [] := by
    simp only [ne_eq, List.map_eq_nil]
    exact hg
  have hminmax := yearMin_le_yearMax _ hys
  have hya : (buildEntity rs name).years_active =
      yearMax ((recordsFor rs name).map (fun r => r.year)) -
        yearMin ((recordsFor rs name).map (fun r => r.year)) + 1 := rfl
  have h1 : 1 ≤ (buildEntity rs name).years_active := by rw [hya]; omega
  have h2 : ((buildEntity rs name).years_active : ℚ) ≠ 0 := by
    have hz : (buildEntity rs name).years_active ≠ 0 := by omega
    exact_mod_cast hz
  refine ⟨h1, h2, ?_⟩
  have hfy : (buildEntity rs name).funding_per_year =
      (buildEntity rs name).total_funding / ((buildEntity rs name).years_active : ℚ) := rfl
  rw [hfy, div_mul_cancel₀ _ h2]

/-- C6 (witness): the statement applied to the single-record input whose
one entity has `years_active = 1`. -/
theorem years_active_ge_one_witness :
    buildEntity [⟨"A", 5, 2020, "T", "C"⟩] "A"
      ∈ prepareFeatures [⟨"A", 5, 2020, "T", "C"⟩] ∧
    (1 ≤ (buildEntity [⟨"A", 5, 2020, "T", "C"⟩] "A").years_active ∧
      ((buildEntity [⟨"A", 5, 2020, "T", "C"⟩] "A").years_active : ℚ) ≠ 0 ∧
      (buildEntity [⟨"A", 5, 2020, "T", "C"⟩] "A").funding_per_year *
          ((buildEntity [⟨"A", 5, 2020, "T", "C"⟩] "A").years_active : ℚ)
        = (buildEntity [⟨"A", 5, 2020, "T", "C"⟩] "A").total_funding) :=
  ⟨by exact List.mem_singleton.mpr rfl,
    years_active_ge_one [⟨"A", 5, 2020, "T", "C"⟩] _
      (by exact List.mem_singleton.mpr rfl)⟩

/-- C7 (spec-modelled): in the Standardizer's transform, a degenerate
column whose values are identical across all rows has variance 0, hence
standard deviation 0, and every row is mapped to `0` rather than producing
a division failure.  The Standardizer is sklearn's `StandardScaler`, not
part of this repository, so the component is modelled from the spec. -/
theorem standardizer_degenerate_column (xs : List ℚ) (c std : ℚ) (hne : xs ≠ [])
    (hc : ∀ v ∈ xs, v = c) (hstd : std ^ 2 = colVar xs) :
    transformCol (colMean xs) std xs = xs.map (fun _ => 0) := by
  have hvar : colVar xs = 0 := colVar_const xs c hne hc
  have h0 : std = 0 := sq_eq_zero_iff.mp (hstd.trans hvar)
  simp [transformCol, h0]

/-- C7 (witness): the statement applied to the constant column `[3, 3]`,
whose variance is 0, with the standard deviation 0. -/
theorem standardizer_degenerate_column_witness :
    ([3, 3] : List ℚ) ≠ [] ∧ (∀ v ∈ ([3, 3] : List ℚ), v = 3) ∧
    ((0 : ℚ) ^ 2 = colVar [3, 3]) ∧
    transformCol (colMean [3, 3]) 0 [3, 3] = ([3, 3] : List ℚ).map (fun _ => 0) :=
  ⟨List.cons_ne_nil _ _, by norm_num, by norm_num [colVar, colMean],
    standardizer_degenerate_column [3, 3] 3 0 (List.cons_ne_nil _ _) (by norm_num)
      (by norm_num [colVar, colMean])⟩

theorem logb_4000001_bounds :
    (6.602 : ℝ) < Real.logb 10 4000001 ∧ Real.logb 10 4000001 < 6.6021 := by
  have h10 : (0:ℝ) < Real.log 10 := Real.log_pos (by norm_num)
  constructor
  · have hpow : (10:ℝ) ^ (3301:ℕ) < (4000001:ℝ) ^ (500:ℕ) := by norm_num
    have hlog := Real.log_lt_log (by positivity) hpow
    rw [Real.log_pow, Real.log_pow] at hlog
    rw [Real.logb, lt_div_iff₀ h10]
    push_cast at hlog
    nlinarith [hlog]
  · have hpow : (4000001:ℝ) ^ (10000:ℕ) < (10:ℝ) ^ (66021:ℕ) := by norm_num
    have hlog := Real.log_lt_log (by positivity) hpow
    rw [Real.log_pow, Real.log_pow] at hlog
    rw [Real.logb, div_lt_iff₀ h10]
    push_cast at hlog
    nlinarith [hlog]

/-- C9: for an entity with exactly two records of amounts 1,000,000 and
3,000,000 in years 2019 and 2021, `prepare_features` yields
`total_funding = 4,000,000`, `avg_funding_per_round = 2,000,000`,
`num_funding_rounds = 2`, `years_active = 3`,
`funding_per_year = 4,000,000 / 3` (≈ 1,333,333.33), and
`log_total_funding = log10(4,000,001)`, which lies strictly between
6.602 and 6.6021 (≈ 6.60206). -/
theorem prepare_features_concrete_scenario :
    ∃ e : StartupFeatures,
      prepareFeatures [⟨"A", 1000000, 2019, "Tech", "Delhi"⟩,
          ⟨"A", 3000000, 2021, "Tech", "Delhi"⟩] = [e] ∧
      e.total_funding = 4000000 ∧
      e.avg_funding_per_round = 2000000 ∧
      e.num_funding_rounds = 2 ∧
      e.years_active = 3 ∧
      e.funding_per_year = 4000000 / 3 ∧
      logTotalFunding e = Real.logb 10 4000001 ∧
      (6.602 : ℝ) < logTotalFunding e ∧ logTotalFunding e < 6.6021 := by
  have htot : (buildEntity [⟨"A", 1000000, 2019, "Tech", "Delhi"⟩,
      ⟨"A", 3000000, 2021, "Tech", "Delhi"⟩] "A").total_funding = 4000000 := by
    rw [show (buildEntity [⟨"A", 1000000, 2019, "Tech", "Delhi"⟩,
      ⟨"A", 3000000, 2021, "Tech", "Delhi"⟩] "A").total_funding
      = ((1000000:ℚ) + (3000000 + 0)) from rfl]
    norm_num
  have hlog : logTotalFunding (buildEntity [⟨"A", 1000000, 2019, "Tech", "Delhi"⟩,
      ⟨"A", 3000000, 2021, "Tech", "Delhi"⟩] "A") = Real.logb 10 4000001 := by
    rw [logTotalFunding, htot]
    norm_num
  refine ⟨buildEntity [⟨"A", 1000000, 2019, "Tech", "Delhi"⟩,
    ⟨"A", 3000000, 2021, "Tech", "Delhi"⟩] "A", rfl, htot, ?_, by decide, by decide,
    ?_, hlog, ?_, ?_⟩
  · rw [show (buildEntity [⟨"A", 1000000, 2019, "Tech", "Delhi"⟩,
      ⟨"A", 3000000, 2021, "Tech", "Delhi"⟩] "A").avg_funding_per_round
      = ((1000000:ℚ) + (3000000 + 0)) / ((2:ℕ):ℚ) from rfl]
    norm_num
  · rw [show (buildEntity [⟨"A", 1000000, 2019, "Tech", "Delhi"⟩,
      ⟨"A", 3000000, 2021, "Tech", "Delhi"⟩] "A").funding_per_year
      = ((1000000:ℚ) + (3000000 + 0)) / ((3:ℤ):ℚ) from rfl]
    norm_num
  · rw [hlog]; exact logb_4000001_bounds.1
  · rw [hlog]; exact logb_4000001_bounds.2

/-- C10: `_clean_amount` is total and never raises: NaN maps to 0, numeric
values pass through, magnitude suffixes scale by their multipliers
(B ×1e9, M ×1e6, K ×1e3, CR ×1e7, L ×1e5), and any string whose cleaned,
suffix-stripped remainder fails to parse as a number returns 0 via the
bare `except` rather than an error. -/
theorem clean_amount_total :
    cleanAmount RawAmount.nan = 0 ∧
    (∀ q : ℚ, cleanAmount (.num q) = q) ∧
    cleanAmount (.str "$2B") = 2000000000 ∧
    cleanAmount (.str "3M") = 3000000 ∧
    cleanAmount (.str "4K") = 4000 ∧
    cleanAmount (.str "5CR") = 50000000 ∧
    cleanAmount (.str "6L") = 600000 ∧
    (∀ s : String,
      parseDecimal (stripChars (applySuffix (cleanCurrency s.data)).1) = none →
        cleanAmount (.str s) = 0) := by
  refine ⟨rfl, fun q => rfl, ?_, ?_, ?_, ?_, ?_, ?_⟩
  · rw [show cleanAmount (.str "$2B") = ((2:ℕ):ℚ) * 1000000000 from rfl]; norm_num
  · rw [show cleanAmount (.str "3M") = ((3:ℕ):ℚ) * 1000000 from rfl]; norm_num
  · rw [show cleanAmount (.str "4K") = ((4:ℕ):ℚ) * 1000 from rfl]; norm_num
  · rw [show cleanAmount (.str "5CR") = ((5:ℕ):ℚ) * 10000000 from rfl]; norm_num
  · rw [show cleanAmount (.str "6L") = ((6:ℕ):ℚ) * 100000 from rfl]; norm_num
  · intro s h
    simp only [cleanAmount]
    rw [h]

/-- C10 (witness): the unparseable-string case applied to `"XYZ"`, which
survives no suffix and fails to parse, hence returns 0. -/
theorem clean_amount_total_witness :
    parseDecimal (stripChars (applySuffix (cleanCurrency "XYZ".data)).1) = none ∧
    cleanAmount (.str "XYZ") = 0 :=
  ⟨by decide, clean_amount_total.2.2.2.2.2.2.2 "XYZ" (by decide)⟩
